import Mathlib

/-!
Shallow embedding of the node-event-tracker decision engine.

Sources embedded:
  * `EventTracker` (key derivation, `trackEvent`, `processDeferredEvents`,
    `updateConfig`) from `index.js`;
  * `SimpleCounterStrategy.track`;
  * `TokenBucketStrategy.track`;
  * the `InMemoryAdapter` map operations (`get`, `set`, `delete`, `size`,
    `findDueDeferred`).

Modelling conventions:
  * timestamps are `Nat` milliseconds (JS `Date.now()`);
  * the SHA-256 digests used for the composite key and the details
    fingerprint are modelled as the strings they digest: SHA-256 maps equal
    inputs to equal outputs, and the spec assumes collision resistance, so
    string equality is the faithful model of digest equality;
  * `JSON.stringify(value, replacerArray)` is embedded including its real
    semantics that the replacer array filters object properties at every
    nesting depth and fixes their output order; string escaping is omitted
    (all payloads considered contain no characters needing escapes);
  * the token-bucket refill rate is modelled as a positive integer number of
    tokens per second, so `Math.floor(elapsedSeconds * refillRate)` is the
    integer division `(now - lastRefill) * refillRate / 1000`, and
    `(1 / refillRate) * 1000` is `1000 / refillRate`.
-/

/-- A JSON value, the model of a JS `details` payload. -/
inductive Json where
  | null : Json
  | bool : Bool → Json
  | num : Int → Json
  | str : String → Json
  | arr : List Json → Json
  | obj : List (String × Json) → Json

/-- JS property access `fields[k]` on an object's own properties. -/
def lookupField (k : String) : List (String × Json) → Option Json
  | [] => none
  | (k2, v) :: rest => if k2 = k then some v else lookupField k rest

mutual

/-- An executable size measure of a JSON value, used as serializer fuel. -/
def jsonSize : Json → Nat
  | .null => 1
  | .bool _ => 1
  | .num _ => 1
  | .str _ => 1
  | .arr xs => 1 + jsonSizeList xs
  | .obj fs => 1 + jsonSizeFields fs

/-- Size of a list of JSON values. -/
def jsonSizeList : List Json → Nat
  | [] => 1
  | x :: xs => 1 + jsonSize x + jsonSizeList xs

/-- Size of a JSON object's field list. -/
def jsonSizeFields : List (String × Json) → Nat
  | [] => 1
  | (_, v) :: fs => 1 + jsonSize v + jsonSizeFields fs

end

/-- Every JSON value has positive size. -/
theorem one_le_jsonSize (j : Json) : 1 ≤ jsonSize j := by
  cases j <;> simp [jsonSize]

/-- A member of a list is smaller than the list's size. -/
theorem jsonSize_lt_of_mem {x : Json} :
    ∀ {xs : List Json}, x ∈ xs → jsonSize x < jsonSizeList xs := by
  intro xs
  induction xs with
  | nil => intro h; cases h
  | cons y rest ih =>
    intro h
    cases h with
    | head => simp [jsonSizeList]; omega
    | tail _ hmem =>
      have := ih hmem
      simp [jsonSizeList]
      omega

/-- A property value found by lookup is smaller than the field list. -/
theorem lookupField_jsonSize {k : String} {v : Json} :
    ∀ {fs : List (String × Json)}, lookupField k fs = some v → jsonSize v < jsonSizeFields fs := by
  intro fs
  induction fs with
  | nil => intro h; simp [lookupField] at h
  | cons p rest ih =>
    intro h
    obtain ⟨k2, v2⟩ := p
    simp only [lookupField] at h
    split at h
    · cases h
      simp [jsonSizeFields]
      omega
    · have := ih h
      simp [jsonSizeFields]
      omega

/-- Surrounds a string with double quotes, as `JSON.stringify` does for keys
and string values (escaping omitted: the payloads considered contain no
characters that need escaping). -/
def quoteStr (s : String) : String := "\"" ++ s ++ "\""

/-- The model of `JSON.stringify(j, keys)` with an array replacer: the key
list filters the properties of every object at every depth and fixes their
output order; array elements are never filtered. The `fuel` argument only
makes the recursion structural; `stringifyFuel_congr` below shows the result
does not depend on it as long as it is at least `jsonSize j`, which the
wrapper `stringifyWith` always supplies. -/
def stringifyFuel (keys : List String) : Nat → Json → String
  | 0, _ => ""
  | fuel + 1, j =>
    match j with
    | .null => "null"
    | .bool b => if b then "true" else "false"
    | .num n => toString n
    | .str s => quoteStr s
    | .arr xs =>
      "[" ++ String.intercalate "," (xs.map (stringifyFuel keys fuel)) ++ "]"
    | .obj fs =>
      "\x7b" ++ String.intercalate ","
        (keys.filterMap fun k =>
          (lookupField k fs).map fun v => quoteStr k ++ ":" ++ stringifyFuel keys fuel v)
        ++ "\x7d"

/-- The fuel plays no role once it covers the size of the value: the
fuel-indexed serializer agrees for any two sufficient fuels. -/
theorem stringifyFuel_congr (keys : List String) :
    ∀ (f1 : Nat) (j : Json) (f2 : Nat), jsonSize j ≤ f1 → jsonSize j ≤ f2 →
      stringifyFuel keys f1 j = stringifyFuel keys f2 j := by
  intro f1
  induction f1 with
  | zero =>
    intro j f2 h1 _
    have := one_le_jsonSize j
    omega
  | succ a ih =>
    intro j f2 h1 h2
    cases f2 with
    | zero =>
      have := one_le_jsonSize j
      omega
    | succ b =>
      cases j with
      | null => rfl
      | bool x => rfl
      | num n => rfl
      | str s => rfl
      | arr xs =>
        simp only [stringifyFuel]
        have hxs : xs.map (stringifyFuel keys a) = xs.map (stringifyFuel keys b) := by
          apply List.map_congr_left
          intro x hx
          have hlt := jsonSize_lt_of_mem hx
          simp only [jsonSize] at h1 h2
          exact ih x b (by omega) (by omega)
        rw [hxs]
      | obj fs =>
        simp only [stringifyFuel]
        have hkeys : (keys.filterMap fun k =>
              (lookupField k fs).map fun v => quoteStr k ++ ":" ++ stringifyFuel keys a v)
            = keys.filterMap fun k =>
              (lookupField k fs).map fun v => quoteStr k ++ ":" ++ stringifyFuel keys b v := by
          apply List.filterMap_congr
          intro k _
          cases hlk : lookupField k fs with
          | none => rfl
          | some v =>
            have hlt := lookupField_jsonSize hlk
            simp only [jsonSize] at h1 h2
            simp only [Option.map_some']
            rw [ih v b (by omega) (by omega)]
        rw [hkeys]

/-- `JSON.stringify(j, keys)` with an array replacer. -/
def stringifyWith (keys : List String) (j : Json) : String :=
  stringifyFuel keys (jsonSize j) j

/-- Boolean string order used to model the JS default `Array.sort`
comparator (lexicographic). -/
def strLe (a b : String) : Bool := (compare a b).isLE

/-- Insertion step of the sort used for `Object.keys(details).sort()`. -/
def insertSorted (s : String) : List String → List String
  | [] => [s]
  | t :: ts => if strLe s t then s :: t :: ts else t :: insertSorted s ts

/-- The model of `Object.keys(details).sort()` for string keys. -/
def sortKeys : List String → List String
  | [] => []
  | k :: ks => insertSorted k (sortKeys ks)

/-- JS `Object.keys` on a JSON value: own property names of an object, the
index strings of an array, nothing otherwise. -/
def jsKeys : Json → List String
  | .obj fs => fs.map Prod.fst
  | .arr xs => (List.range xs.length).map (fun i => toString i)
  | _ => []

/-- `EventTracker.generateDetailsHash`: the empty string for falsy or
non-object values, else the digest of `JSON.stringify(details, sortedKeys)`
where `sortedKeys = Object.keys(details).sort()` (digest modelled as the
serialized string itself). -/
def generateDetailsHash (details : Json) : String :=
  match details with
  | .obj _ => stringifyWith (sortKeys (jsKeys details)) details
  | .arr _ => stringifyWith (sortKeys (jsKeys details)) details
  | _ => ""

/-- `EventTracker.generateCompositeKey`: the digest of
`category ++ ":" ++ id` (digest modelled as the string itself). -/
def generateCompositeKey (category id : String) : String :=
  category ++ ":" ++ id

/-- Outcome of a strategy decision. -/
inductive Outcome where
  | immediate : Outcome
  | deferred : Outcome
  | ignored : Outcome
deriving DecidableEq

/-- The tracker's own configuration fields read by the strategies and the
coordinator (`limit`, `deferInterval`, `expireTime`, `maxKeys`). -/
structure Tracker where
  limit : Nat
  deferInterval : Nat
  expireTime : Nat
  maxKeys : Nat
deriving DecidableEq

/-- The per-record config snapshot written by `SimpleCounterStrategy` at
record creation. -/
structure CounterConfig where
  limit : Nat
  deferInterval : Nat
deriving DecidableEq

/-- An event record as maintained under the counter strategy. -/
structure CounterRecord where
  key : String
  category : String
  id : String
  details : Json
  detailsHash : String
  count : Nat
  lastEventTime : Nat
  expiresAt : Nat
  deferred : Bool
  scheduledSendAt : Option Nat
  config : CounterConfig

/-- The event data assembled by `trackEvent` and handed to the strategy. -/
structure EventData where
  compositeKey : String
  category : String
  id : String
  details : Json
  detailsHash : String

/-- `SimpleCounterStrategy.track`: create or bump the record, then return
`ignored` if already deferred, `deferred` on the occurrence that pushes
`count` past the record's frozen `config.limit`, else `immediate`. -/
def counterTrack (t : Tracker) (record : Option CounterRecord) (e : EventData)
    (now : Nat) : Outcome × CounterRecord :=
  let updatedRecord : CounterRecord :=
    match record with
    | none =>
      { key := e.compositeKey
        category := e.category
        id := e.id
        details := e.details
        detailsHash := e.detailsHash
        count := 1
        lastEventTime := now
        expiresAt := now + t.expireTime
        deferred := false
        scheduledSendAt := none
        config := { limit := t.limit, deferInterval := t.deferInterval } }
    | some r =>
      { r with count := r.count + 1, lastEventTime := now, expiresAt := now + t.expireTime }
  if updatedRecord.deferred then
    (.ignored, updatedRecord)
  else if updatedRecord.config.limit < updatedRecord.count then
    (.deferred, { updatedRecord with
                    deferred := true
                    scheduledSendAt := some (now + updatedRecord.config.deferInterval) })
  else
    (.immediate, updatedRecord)

/-! ### Storage: the `InMemoryAdapter` map, modelled as an association list
in insertion order with unique keys (a JS `Map`). -/

/-- The in-memory store: composite key to record, in insertion order. -/
abbrev CounterStorage := List (String × CounterRecord)

/-- `InMemoryAdapter.get`. -/
def storageGet (s : CounterStorage) (k : String) : Option CounterRecord :=
  match s with
  | [] => none
  | (k2, r) :: rest => if k2 = k then some r else storageGet rest k

/-- `InMemoryAdapter.set` (JS `Map.set`): replace in place if the key is
present, else append. -/
def storageSet (s : CounterStorage) (k : String) (r : CounterRecord) : CounterStorage :=
  match s with
  | [] => [(k, r)]
  | (k2, r2) :: rest => if k2 = k then (k, r) :: rest else (k2, r2) :: storageSet rest k r

/-- `InMemoryAdapter.delete` (JS `Map.delete`): remove the entry with the
key, if any. -/
def storageDelete (s : CounterStorage) (k : String) : CounterStorage :=
  match s with
  | [] => []
  | (k2, r2) :: rest => if k2 = k then rest else (k2, r2) :: storageDelete rest k

/-- `InMemoryAdapter.size` (JS `Map.size`). -/
def storageSize (s : CounterStorage) : Nat := s.length

/-- The due test of `InMemoryAdapter.findDueDeferred`:
`record.deferred && record.scheduledSendAt && timestamp >= record.scheduledSendAt`
(a `scheduledSendAt` of `0` is falsy in JS, hence the `ts ≠ 0` conjunct). -/
def isDue (timestamp : Nat) (r : CounterRecord) : Bool :=
  r.deferred && (match r.scheduledSendAt with
    | some ts => decide (ts ≠ 0) && decide (ts ≤ timestamp)
    | none => false)

/-- `InMemoryAdapter.findDueDeferred`: all stored records passing the due
test, in store order. -/
def findDueDeferred (timestamp : Nat) (s : CounterStorage) : List CounterRecord :=
  (s.map Prod.snd).filter (isDue timestamp)

/-! ### The tracker coordinator. -/

/-- A notification emitted by the tracker (`EventEmitter.emit`). -/
inductive Emitted where
  | ignoredReason (reason : String) (category id : String) (details : Json)
  | tracked (r : CounterRecord)
  | outcomeEv (o : Outcome) (r : CounterRecord)
  | processed (r : CounterRecord)
  | configUpdated (r : CounterRecord)

/-- The value returned by `trackEvent`: either the early
`{ type: 'ignored', reason }` guard return, or `{ type: outcome, data }`. -/
inductive TrackResult where
  | ignoredWithReason (reason : String)
  | done (type : Outcome) (data : CounterRecord)

/-- The read phase of `EventTracker.trackEvent`: fetch the record and treat
it as absent when `now > expiresAt` or the stored fingerprint differs. -/
def readValid (s : CounterStorage) (k : String) (detailsHash : String) (now : Nat) :
    Option CounterRecord :=
  match storageGet s k with
  | none => none
  | some r =>
    if r.expiresAt < now then none
    else if r.detailsHash ≠ detailsHash then none
    else some r

/-- `EventTracker.trackEvent`, parameterized by the injected strategy (the
constructor's `options.strategy`): derive key and fingerprint, read the
record through the expiry/fingerprint check, apply the `maxKeys` guard for
keys without a valid record, else run the strategy, persist its record and
emit `tracked` plus the outcome event. Returns (result, storage, emitted). -/
def trackEventWith
    (strat : Tracker → Option CounterRecord → EventData → Nat → Outcome × CounterRecord)
    (t : Tracker) (s : CounterStorage) (category id : String) (details : Json)
    (now : Nat) : TrackResult × CounterStorage × List Emitted :=
  let compositeKey := generateCompositeKey category id
  let detailsHash := generateDetailsHash details
  let record := readValid s compositeKey detailsHash now
  if record.isNone && decide (0 < t.maxKeys) && decide (t.maxKeys ≤ storageSize s) then
    (.ignoredWithReason "key_limit_reached", s,
      [.ignoredReason "key_limit_reached" category id details])
  else
    let e : EventData :=
      { compositeKey := compositeKey, category := category, id := id,
        details := details, detailsHash := detailsHash }
    let res := strat t record e now
    (.done res.1 res.2, storageSet s compositeKey res.2,
      [.tracked res.2, .outcomeEv res.1 res.2])

/-- `EventTracker.trackEvent` with the default `SimpleCounterStrategy`. -/
def trackEventC (t : Tracker) (s : CounterStorage) (category id : String)
    (details : Json) (now : Nat) : TrackResult × CounterStorage × List Emitted :=
  trackEventWith counterTrack t s category id details now

/-- `EventTracker.processDeferredEvents`: fetch all due deferred records,
delete each from storage (by its `key` field), emit `processed` per record,
return the batch. Returns (batch, storage, emitted). -/
def processDeferredEvents (now : Nat) (s : CounterStorage) :
    List CounterRecord × CounterStorage × List Emitted :=
  let dueEvents := findDueDeferred now s
  (dueEvents, dueEvents.foldl (fun st r => storageDelete st r.key) s,
    dueEvents.map .processed)

/-- A config patch handed to `updateConfig`: fields present in the JS
`newConfig` object override, absent fields keep the prior value. -/
structure ConfigPatch where
  patchLimit : Option Nat
  patchDeferInterval : Option Nat

/-- The JS object spread `{ ...record.config, ...newConfig }` over the
counter config fields. -/
def mergeConfig (c : CounterConfig) (p : ConfigPatch) : CounterConfig :=
  { limit := p.patchLimit.getD c.limit
    deferInterval := p.patchDeferInterval.getD c.deferInterval }

/-- `EventTracker.updateConfig`: `false` with no write and no notification
when the key has no record; otherwise merge the patch into the record's
config, persist, emit `config_updated`, return `true`. -/
def updateConfig (s : CounterStorage) (category id : String) (patch : ConfigPatch) :
    Bool × CounterStorage × List Emitted :=
  let compositeKey := generateCompositeKey category id
  match storageGet s compositeKey with
  | none => (false, s, [])
  | some r =>
    let merged := { r with config := mergeConfig r.config patch }
    (true, storageSet s compositeKey merged, [.configUpdated merged])

/-! ### The token-bucket strategy. -/

/-- The per-record config snapshot written by `TokenBucketStrategy` at
record creation. -/
structure BucketConfig where
  bucketSize : Nat
  refillRate : Nat
  deferInterval : Nat
deriving DecidableEq

/-- The strategy-private per-record state (`record.strategyData`). -/
structure BucketData where
  tokens : Nat
  lastRefill : Nat
deriving DecidableEq

/-- An event record as maintained under the token-bucket strategy. -/
structure BucketRecord where
  key : String
  category : String
  id : String
  details : Json
  detailsHash : String
  count : Nat
  lastEventTime : Nat
  expiresAt : Nat
  deferred : Bool
  scheduledSendAt : Option Nat
  config : BucketConfig
  strategyData : BucketData

/-- The `TokenBucketStrategy` instance fields (`bucketSize`, `refillRate`,
tokens per second as a positive integer). -/
structure BucketStrategy where
  bucketSize : Nat
  refillRate : Nat
deriving DecidableEq

/-- The refill amount `tokensToAdd = Math.floor(elapsedSeconds * refillRate)`
of `TokenBucketStrategy.track` (integer milliseconds and rate, so the floor
is the integer division). -/
def bucketTokensToAdd (r0 : BucketRecord) (now : Nat) : Nat :=
  (now - r0.strategyData.lastRefill) * r0.config.refillRate / 1000

/-- The `currentTokens` value of `TokenBucketStrategy.track`: refilled and
capped at `bucketSize` when at least one whole token accrued, otherwise the
stored count. -/
def bucketCurrentTokens (r0 : BucketRecord) (now : Nat) : Nat :=
  if 0 < bucketTokensToAdd r0 now then
    min r0.config.bucketSize (r0.strategyData.tokens + bucketTokensToAdd r0 now)
  else r0.strategyData.tokens

/-- The `lastRefill` field after `TokenBucketStrategy.track`'s conditional
`updatedRecord.strategyData.lastRefill = now` mutation, which fires only
when a whole token was added (avoiding loss of fractional progress). -/
def bucketLastRefill (r0 : BucketRecord) (now : Nat) : Nat :=
  if 0 < bucketTokensToAdd r0 now then now else r0.strategyData.lastRefill

/-- `TokenBucketStrategy.track`: on creation start at `bucketSize - 1`
tokens and admit; otherwise refill (see `bucketCurrentTokens`,
`bucketLastRefill`), then either consume a token and admit — clearing
`deferred`/`scheduledSendAt` — or transition to Deferred with
`scheduledSendAt = now + (1/refillRate) seconds`. -/
def bucketTrack (strat : BucketStrategy) (t : Tracker) (record : Option BucketRecord)
    (e : EventData) (now : Nat) : Outcome × BucketRecord :=
  match record with
  | none =>
    (.immediate,
      { key := e.compositeKey
        category := e.category
        id := e.id
        details := e.details
        detailsHash := e.detailsHash
        count := 1
        lastEventTime := now
        expiresAt := now + t.expireTime
        deferred := false
        scheduledSendAt := none
        config := { bucketSize := strat.bucketSize, refillRate := strat.refillRate,
                    deferInterval := t.deferInterval }
        strategyData := { tokens := strat.bucketSize - 1, lastRefill := now } })
  | some r0 =>
    if 1 ≤ bucketCurrentTokens r0 now then
      (.immediate,
        { r0 with
            strategyData := { tokens := bucketCurrentTokens r0 now - 1
                              lastRefill := bucketLastRefill r0 now }
            count := r0.count + 1
            lastEventTime := now
            expiresAt := now + t.expireTime
            deferred := false
            scheduledSendAt := none })
    else
      (.deferred,
        { r0 with
            strategyData := { tokens := r0.strategyData.tokens
                              lastRefill := bucketLastRefill r0 now }
            deferred := true
            scheduledSendAt := some (now + 1000 / r0.config.refillRate) })

/-! ### Counter-strategy episode analysis. -/

/-- Unfolding of `counterTrack` on an absent record: the fresh record is
created with `count = 1` and today's config snapshot, then runs through the
admission checks. -/
theorem counterTrack_none (t : Tracker) (e : EventData) (now : Nat) :
    counterTrack t none e now =
      (let fresh : CounterRecord :=
        { key := e.compositeKey, category := e.category, id := e.id,
          details := e.details, detailsHash := e.detailsHash, count := 1,
          lastEventTime := now, expiresAt := now + t.expireTime, deferred := false,
          scheduledSendAt := none,
          config := { limit := t.limit, deferInterval := t.deferInterval } }
      if t.limit < 1 then
        (.deferred,
          { fresh with
              deferred := true
              scheduledSendAt := some (now + t.deferInterval) })
      else (.immediate, fresh)) := rfl

/-- Unfolding of `counterTrack` on an existing record. -/
theorem counterTrack_some (t : Tracker) (r : CounterRecord) (e : EventData) (now : Nat) :
    counterTrack t (some r) e now =
      (let u : CounterRecord :=
        { r with count := r.count + 1, lastEventTime := now, expiresAt := now + t.expireTime }
      if r.deferred then (.ignored, u)
      else if r.config.limit < r.count + 1 then
        (.deferred,
          { u with
              deferred := true
              scheduledSendAt := some (now + r.config.deferInterval) })
      else (.immediate, u)) := rfl

/-- The record threaded through `n` consecutive strategy calls for the same
key starting from Absent: call `i` happens at time `times i` with the
tracker configured as `ts i`. This is the per-key record evolution of
consecutive `trackEvent` calls with identical (category, identifier,
details) and no expiry, fingerprint change, or drain in between. -/
def counterStateAfter (ts : Nat → Tracker) (times : Nat → Nat) (e : EventData) :
    Nat → Option CounterRecord
  | 0 => none
  | n + 1 => some (counterTrack (ts n) (counterStateAfter ts times e n) e (times n)).2

/-- The outcome of the `(n+1)`-th call of such a sequence (0-indexed `n`). -/
def counterOutcomeAt (ts : Nat → Tracker) (times : Nat → Nat) (e : EventData)
    (n : Nat) : Outcome :=
  (counterTrack (ts n) (counterStateAfter ts times e n) e (times n)).1

/-- Invariant of the threaded record: after `n + 1` calls the count is
`n + 1`, the config is the creation-time snapshot of `ts 0`, and the record
is deferred exactly when the count has passed that snapshot's limit. -/
theorem counterStateAfter_spec (ts : Nat → Tracker) (times : Nat → Nat) (e : EventData) :
    ∀ n : Nat, ∃ r : CounterRecord,
      counterStateAfter ts times e (n + 1) = some r ∧
      r.count = n + 1 ∧
      r.config = { limit := (ts 0).limit, deferInterval := (ts 0).deferInterval } ∧
      (r.deferred = true ↔ (ts 0).limit < n + 1) := by
  intro n
  induction n with
  | zero =>
    have h0 : counterStateAfter ts times e 1
        = some (counterTrack (ts 0) none e (times 0)).2 := rfl
    rw [counterTrack_none] at h0
    by_cases hl : (ts 0).limit < 1
    · rw [if_pos hl] at h0
      exact ⟨_, h0, rfl, rfl, by simp [hl]⟩
    · rw [if_neg hl] at h0
      exact ⟨_, h0, rfl, rfl, by simp [hl]⟩
  | succ n ih =>
    obtain ⟨r, hr, hcount, hconfig, hdef⟩ := ih
    have h0 : counterStateAfter ts times e (n + 2)
        = some (counterTrack (ts (n + 1)) (counterStateAfter ts times e (n + 1)) e
            (times (n + 1))).2 := rfl
    rw [hr, counterTrack_some] at h0
    by_cases hd : r.deferred
    · rw [if_pos hd] at h0
      refine ⟨_, h0, by simp [hcount], by simp [hconfig], ?_⟩
      have : (ts 0).limit < n + 1 := hdef.mp hd
      simp [hd]
      omega
    · rw [if_neg hd] at h0
      have hnle : ¬ (ts 0).limit < n + 1 := fun h => hd (hdef.mpr h)
      by_cases hlim : r.config.limit < r.count + 1
      · rw [if_pos hlim] at h0
        refine ⟨_, h0, by simp [hcount], by simp [hconfig], ?_⟩
        rw [hconfig] at hlim
        simp only [hcount] at hlim
        simp
        omega
      · rw [if_neg hlim] at h0
        refine ⟨_, h0, by simp [hcount], by simp [hconfig], ?_⟩
        rw [hconfig] at hlim
        simp only [hcount] at hlim
        simp only [Bool.false_eq_true]  -- deferred field is r.deferred
        constructor
        · intro hcontr
          exact absurd hcontr hd
        · intro hcontr
          omega

/-- C1: under the counter strategy, for every sequence of calls with
identical (category, identifier, details) starting from an Absent key — no
expiry, fingerprint change, or drain in between — with `L` the limit frozen
in the record's creation-time config snapshot, the first `L` calls return
`immediate`, the `(L+1)`-th returns `deferred` (exactly once, as no other
index satisfies its branch), and every subsequent call returns `ignored`. -/
theorem counter_episode_outcomes (ts : Nat → Tracker) (times : Nat → Nat)
    (e : EventData) (n : Nat) :
    counterOutcomeAt ts times e n =
      if n < (ts 0).limit then .immediate
      else if n = (ts 0).limit then .deferred
      else .ignored := by
  cases n with
  | zero =>
    have h0 : counterOutcomeAt ts times e 0
        = (counterTrack (ts 0) none e (times 0)).1 := rfl
    rw [counterTrack_none] at h0
    by_cases hl : (ts 0).limit < 1
    · rw [if_pos hl] at h0
      rw [h0]
      have h1 : (ts 0).limit = 0 := by omega
      simp [h1]
    · rw [if_neg hl] at h0
      rw [h0]
      have h1 : 0 < (ts 0).limit := by omega
      simp [h1]
  | succ n =>
    obtain ⟨r, hr, hcount, hconfig, hdef⟩ := counterStateAfter_spec ts times e n
    have h0 : counterOutcomeAt ts times e (n + 1)
        = (counterTrack (ts (n + 1)) (counterStateAfter ts times e (n + 1)) e
            (times (n + 1))).1 := rfl
    rw [hr, counterTrack_some] at h0
    by_cases hd : r.deferred
    · rw [if_pos hd] at h0
      rw [h0]
      have h1 : (ts 0).limit < n + 1 := hdef.mp hd
      rw [if_neg (by omega), if_neg (by omega)]
    · rw [if_neg hd] at h0
      have hnle : ¬ (ts 0).limit < n + 1 := fun h => hd (hdef.mpr h)
      by_cases hlim : r.config.limit < r.count + 1
      · rw [if_pos hlim] at h0
        rw [h0]
        rw [hconfig] at hlim
        simp only [hcount] at hlim
        rw [if_neg (by omega), if_pos (by omega)]
      · rw [if_neg hlim] at h0
        rw [h0]
        rw [hconfig] at hlim
        simp only [hcount] at hlim
        rw [if_pos (by omega)]

/-! ### Concrete scenario machinery. -/

/-- `n` consecutive `trackEvent` calls with the same (category, identifier,
details) at the same time against an initially empty store, collecting the
returned results. -/
def trackSeq (t : Tracker) (category id : String) (details : Json) (now : Nat) :
    Nat → CounterStorage × List TrackResult
  | 0 => ([], [])
  | n + 1 =>
    let prev := trackSeq t category id details now n
    let step := trackEventC t prev.1 category id details now
    (step.2.1, prev.2 ++ [step.1])

/-- The `type` field of a `trackEvent` return value. -/
def resultType : TrackResult → Option Outcome
  | .ignoredWithReason _ => none
  | .done o _ => some o

/-- The `data.count` field of a `trackEvent` return value (0 when the guard
returned no record). -/
def resultCount : TrackResult → Nat
  | .ignoredWithReason _ => 0
  | .done _ r => r.count

/-- The `data.deferred` field of a `trackEvent` return value. -/
def resultDeferred : TrackResult → Option Bool
  | .ignoredWithReason _ => none
  | .done _ r => some r.deferred

/-- A tracker with the default construction parameters (`limit` 5,
`deferInterval` 1 hour, `expireTime` 24 hours, `maxKeys` 0). -/
def exTracker : Tracker :=
  { limit := 5, deferInterval := 3600000, expireTime := 86400000, maxKeys := 0 }

/-- The record threaded through `n` consecutive token-bucket strategy calls
for the same key starting from Absent, call `i` at time `times i`. -/
def bucketStateAfter (strat : BucketStrategy) (t : Tracker) (e : EventData)
    (times : Nat → Nat) : Nat → Option BucketRecord
  | 0 => none
  | n + 1 =>
    some (bucketTrack strat t (bucketStateAfter strat t e times n) e (times n)).2

/-- The outcome of the `(n+1)`-th token-bucket call (0-indexed `n`). -/
def bucketOutcomeAt (strat : BucketStrategy) (t : Tracker) (e : EventData)
    (times : Nat → Nat) (n : Nat) : Outcome :=
  (bucketTrack strat t (bucketStateAfter strat t e times n) e (times n)).1

/-- The event data of the running example key. -/
def exEvent : EventData :=
  { compositeKey := "api_error:db_connection_fail", category := "api_error",
    id := "db_connection_fail", details := Json.null, detailsHash := "" }

/-- C4 counterexample: with limit 5 and 7 identical calls from Absent the
outcomes are `[immediate ×5, deferred, ignored]`, but the observed counts
are `[1, 2, 3, 4, 5, 6, 7]` — the 7th (ignored) occurrence still increments
`count` to 7, refuting the claimed `[1, 2, 3, 4, 5, 6, 6]`. -/
theorem counter_seven_counts_refute :
    (trackSeq exTracker "api_error" "db_connection_fail" Json.null 0 7).2.map resultType
      = [some .immediate, some .immediate, some .immediate, some .immediate,
         some .immediate, some .deferred, some .ignored]
    ∧ (trackSeq exTracker "api_error" "db_connection_fail" Json.null 0 7).2.map resultCount
      = [1, 2, 3, 4, 5, 6, 7]
    ∧ (trackSeq exTracker "api_error" "db_connection_fail" Json.null 0 7).2.map resultCount
      ≠ [1, 2, 3, 4, 5, 6, 6] := by
  refine ⟨?_, ?_, ?_⟩ <;> decide

/-- C4 (amended): with limit 5 and 7 identical calls from Absent the
outcomes are `[immediate ×5, deferred, ignored]` and the counts observed
after each call are `[1, 2, 3, 4, 5, 6, 7]`: every occurrence, including an
ignored one, increments `count`. -/
theorem counter_seven_call_scenario :
    (trackSeq exTracker "api_error" "db_connection_fail" Json.null 0 7).2.map resultType
      = [some .immediate, some .immediate, some .immediate, some .immediate,
         some .immediate, some .deferred, some .ignored]
    ∧ (trackSeq exTracker "api_error" "db_connection_fail" Json.null 0 7).2.map resultCount
      = [1, 2, 3, 4, 5, 6, 7] := by
  exact ⟨by decide, by decide⟩

/-! ### Deferral-episode behaviour per strategy. -/

/-- The token-bucket strategy never changes a record's config snapshot. -/
theorem bucketTrack_some_config (strat : BucketStrategy) (t : Tracker)
    (r : BucketRecord) (e : EventData) (now : Nat) :
    (bucketTrack strat t (some r) e now).2.config = r.config := by
  simp only [bucketTrack]
  split <;> rfl

/-- On every suppressed occurrence the token-bucket strategy recomputes
`scheduledSendAt = now + (1/refillRate) seconds`. -/
theorem bucketTrack_deferred_ssa (strat : BucketStrategy) (t : Tracker)
    (r : BucketRecord) (e : EventData) (now : Nat)
    (h : (bucketTrack strat t (some r) e now).1 = .deferred) :
    (bucketTrack strat t (some r) e now).2.scheduledSendAt
      = some (now + 1000 / r.config.refillRate) := by
  simp only [bucketTrack] at h ⊢
  split
  · rename_i hc
    rw [if_pos hc] at h
    simp at h
  · rfl

/-- A token-bucket strategy with bucket size 1 and one token per second. -/
def exBucket1 : BucketStrategy := { bucketSize := 1, refillRate := 1 }

/-- C3 counterexample: under the token-bucket strategy (bucket size 1,
three back-to-back calls) the third call hits a record that already has
`deferred = true` and yields outcome `deferred` again — not `ignored` — so
the claim that every further occurrence on a deferred record yields
`ignored` for every strategy is false. -/
theorem bucket_second_deferred_refutes :
    (bucketStateAfter exBucket1 exTracker exEvent (fun _ => 0) 2).map BucketRecord.deferred
      = some true
    ∧ bucketOutcomeAt exBucket1 exTracker exEvent (fun _ => 0) 2 = .deferred
    ∧ Outcome.deferred ≠ Outcome.ignored := by
  refine ⟨?_, ?_, ?_⟩ <;> decide

/-- C3 (amended): under the counter strategy, once a record has
`deferred = true` every further occurrence yields `ignored`, keeps
`deferred = true`, and does not move `scheduledSendAt`, until the record is
drained or reset. Under the token-bucket strategy the outcome `ignored` is
never produced: a suppressed occurrence on an already-deferred record
yields `deferred` again (with `scheduledSendAt` recomputed, see
`bucketTrack_deferred_ssa`). -/
theorem deferral_episode_by_strategy :
    (∀ (t : Tracker) (r : CounterRecord) (e : EventData) (now : Nat),
        r.deferred = true →
          (counterTrack t (some r) e now).1 = .ignored
          ∧ (counterTrack t (some r) e now).2.deferred = true
          ∧ (counterTrack t (some r) e now).2.scheduledSendAt = r.scheduledSendAt)
    ∧ (∀ (strat : BucketStrategy) (t : Tracker) (record : Option BucketRecord)
          (e : EventData) (now : Nat),
        (bucketTrack strat t record e now).1 ≠ .ignored) := by
  constructor
  · intro t r e now hd
    rw [counterTrack_some]
    rw [if_pos hd]
    exact ⟨rfl, hd, rfl⟩
  · intro strat t record e now
    cases record with
    | none => simp [bucketTrack]
    | some r0 =>
      simp only [bucketTrack]
      split <;> simp

/-- A counter record currently in the Deferred state. -/
def exDeferredCounterRecord : CounterRecord :=
  { key := "api_error:db_connection_fail", category := "api_error",
    id := "db_connection_fail", details := Json.null, detailsHash := "",
    count := 6, lastEventTime := 0, expiresAt := 86400000, deferred := true,
    scheduledSendAt := some 3600000,
    config := { limit := 5, deferInterval := 3600000 } }

/-- Witness for `deferral_episode_by_strategy` at a concrete deferred
record. -/
theorem deferral_episode_by_strategy_witness :
    exDeferredCounterRecord.deferred = true
    ∧ ((counterTrack exTracker (some exDeferredCounterRecord) exEvent 1).1 = .ignored
        ∧ (counterTrack exTracker (some exDeferredCounterRecord) exEvent 1).2.deferred = true
        ∧ (counterTrack exTracker (some exDeferredCounterRecord) exEvent 1).2.scheduledSendAt
            = exDeferredCounterRecord.scheduledSendAt)
    ∧ (bucketTrack exBucket1 exTracker none exEvent 0).1 ≠ .ignored :=
  ⟨rfl,
   deferral_episode_by_strategy.1 exTracker exDeferredCounterRecord exEvent 1 rfl,
   deferral_episode_by_strategy.2 exBucket1 exTracker none exEvent 0⟩

/-- C6: under the token-bucket strategy, whenever an occurrence on an
existing record is admitted (outcome `immediate`), the returned record has
`deferred = false` and `scheduledSendAt = null` — a successful admission
returns the key to Active state even if it was previously Deferred. -/
theorem bucket_admission_clears_deferral (strat : BucketStrategy) (t : Tracker)
    (r : BucketRecord) (e : EventData) (now : Nat)
    (h : (bucketTrack strat t (some r) e now).1 = .immediate) :
    (bucketTrack strat t (some r) e now).2.deferred = false
    ∧ (bucketTrack strat t (some r) e now).2.scheduledSendAt = none := by
  simp only [bucketTrack] at h ⊢
  split
  · exact ⟨rfl, rfl⟩
  · rename_i hc
    rw [if_neg hc] at h
    simp at h

/-- A bucket record currently in the Deferred state with a refilled token
available. -/
def exRefilledBucketRecord : BucketRecord :=
  { key := "api_error:db_connection_fail", category := "api_error",
    id := "db_connection_fail", details := Json.null, detailsHash := "",
    count := 3, lastEventTime := 0, expiresAt := 86400000, deferred := true,
    scheduledSendAt := some 1000,
    config := { bucketSize := 5, refillRate := 1, deferInterval := 3600000 },
    strategyData := { tokens := 0, lastRefill := 0 } }

/-- Witness for `bucket_admission_clears_deferral`: two seconds after the
last refill a token is available, the occurrence is admitted, and the
previously deferred record comes back with `deferred = false` and a null
`scheduledSendAt`. -/
theorem bucket_admission_clears_deferral_witness :
    (bucketTrack exBucket1 exTracker (some exRefilledBucketRecord) exEvent 2000).1
      = .immediate
    ∧ ((bucketTrack exBucket1 exTracker (some exRefilledBucketRecord) exEvent 2000).2.deferred
          = false
        ∧ (bucketTrack exBucket1 exTracker (some exRefilledBucketRecord) exEvent
            2000).2.scheduledSendAt = none) :=
  ⟨by decide,
   bucket_admission_clears_deferral exBucket1 exTracker exRefilledBucketRecord exEvent 2000
     (by decide)⟩

/-- A token-bucket strategy with bucket size 5 and one token per second. -/
def exBucket5 : BucketStrategy := { bucketSize := 5, refillRate := 1 }

/-- A bucket record currently in the Deferred state with an empty bucket. -/
def exDeferredBucketRecordW : BucketRecord :=
  { key := "api_error:db_connection_fail", category := "api_error",
    id := "db_connection_fail", details := Json.null, detailsHash := "",
    count := 1, lastEventTime := 0, expiresAt := 86400000, deferred := true,
    scheduledSendAt := some 1000,
    config := { bucketSize := 1, refillRate := 1, deferInterval := 3600000 },
    strategyData := { tokens := 0, lastRefill := 0 } }

/-- C7: with bucket size 5 and refill rate 1 token/sec, 7 back-to-back
occurrences from Absent give `immediate` for the first 5 and `deferred` for
the last 2; every suppressed occurrence recomputes
`scheduledSendAt = now + (1/refillRate) seconds`, and across two successive
suppressed occurrences at non-decreasing times the stored `scheduledSendAt`
never moves backward. -/
theorem bucket_burst_schedule :
    ((List.range 7).map (bucketOutcomeAt exBucket5 exTracker exEvent (fun _ => 0))
      = [.immediate, .immediate, .immediate, .immediate, .immediate, .deferred, .deferred])
    ∧ (∀ (strat : BucketStrategy) (t : Tracker) (r : BucketRecord) (e : EventData)
          (now : Nat),
        (bucketTrack strat t (some r) e now).1 = .deferred →
          (bucketTrack strat t (some r) e now).2.scheduledSendAt
            = some (now + 1000 / r.config.refillRate))
    ∧ (∀ (strat : BucketStrategy) (t : Tracker) (r : BucketRecord)
          (e1 e2 : EventData) (now1 now2 : Nat),
        now1 ≤ now2 →
        (bucketTrack strat t (some r) e1 now1).1 = .deferred →
        (bucketTrack strat t (some (bucketTrack strat t (some r) e1 now1).2) e2 now2).1
            = .deferred →
        ∃ s1 s2 : Nat,
          (bucketTrack strat t (some r) e1 now1).2.scheduledSendAt = some s1
          ∧ (bucketTrack strat t (some (bucketTrack strat t (some r) e1 now1).2) e2
              now2).2.scheduledSendAt = some s2
          ∧ s1 ≤ s2) := by
  refine ⟨by decide, fun strat t r e now h => bucketTrack_deferred_ssa strat t r e now h, ?_⟩
  intro strat t r e1 e2 now1 now2 hle h1 h2
  have c1 := bucketTrack_deferred_ssa strat t r e1 now1 h1
  have c2 := bucketTrack_deferred_ssa strat t
    (bucketTrack strat t (some r) e1 now1).2 e2 now2 h2
  rw [bucketTrack_some_config] at c2
  exact ⟨now1 + 1000 / r.config.refillRate, now2 + 1000 / r.config.refillRate, c1, c2,
    by omega⟩

/-- Witness for `bucket_burst_schedule` at a concrete suppressed pair of
occurrences (bucket size 1, no tokens, two calls at times 0 and 3). -/
theorem bucket_burst_schedule_witness :
    (bucketTrack exBucket1 exTracker (some exDeferredBucketRecordW) exEvent 0).1 = .deferred
    ∧ (bucketTrack exBucket1 exTracker (some exDeferredBucketRecordW) exEvent
        0).2.scheduledSendAt = some (0 + 1000 / exDeferredBucketRecordW.config.refillRate)
    ∧ ∃ s1 s2 : Nat,
        (bucketTrack exBucket1 exTracker (some exDeferredBucketRecordW) exEvent
          0).2.scheduledSendAt = some s1
        ∧ (bucketTrack exBucket1 exTracker
            (some (bucketTrack exBucket1 exTracker (some exDeferredBucketRecordW) exEvent
              0).2) exEvent 3).2.scheduledSendAt = some s2
        ∧ s1 ≤ s2 :=
  ⟨by decide,
   bucket_burst_schedule.2.1 exBucket1 exTracker exDeferredBucketRecordW exEvent 0 (by decide),
   bucket_burst_schedule.2.2 exBucket1 exTracker exDeferredBucketRecordW exEvent exEvent 0 3
     (by omega) (by decide) (by decide)⟩

/-! ### Tracker-level read/reset and admission guard. -/

/-- A read that finds an expired record or a fingerprint mismatch yields a
logically absent record. -/
theorem readValid_none_of_stale (s : CounterStorage) (k dh : String) (now : Nat)
    (r : CounterRecord) (hget : storageGet s k = some r)
    (hstale : r.expiresAt < now ∨ r.detailsHash ≠ dh) :
    readValid s k dh now = none := by
  simp only [readValid, hget]
  rcases hstale with h | h
  · rw [if_pos h]
  · by_cases he : r.expiresAt < now
    · rw [if_pos he]
    · rw [if_neg he, if_pos h]

/-- The strategy result of a `trackEvent` call whose read phase found no
valid record: `counterTrack` applied to an absent record. -/
def freshResult (t : Tracker) (category id : String) (details : Json) (now : Nat) :
    Outcome × CounterRecord :=
  counterTrack t none
    { compositeKey := generateCompositeKey category id, category := category, id := id,
      details := details, detailsHash := generateDetailsHash details } now

/-- C2 (amended): a `trackEvent` call that finds an expired record or a
differing fingerprint — with the `maxKeys` guard not firing — behaves
exactly like a call on a never-seen key: the persisted record is the
strategy's fresh record, with `count = 1` and a config snapshot taken from
the tracker's current configuration, and nothing of the old record carries
over; it has `deferred = false` provided the tracker's current limit is at
least 1 (with limit 0 the fresh record is immediately deferred, again
exactly as on a never-seen key). -/
theorem trackEvent_reset_is_fresh (t : Tracker) (s : CounterStorage)
    (category id : String) (details : Json) (now : Nat) (r : CounterRecord)
    (hget : storageGet s (generateCompositeKey category id) = some r)
    (hstale : r.expiresAt < now ∨ r.detailsHash ≠ generateDetailsHash details)
    (hguard : ¬(0 < t.maxKeys ∧ t.maxKeys ≤ storageSize s)) :
    trackEventC t s category id details now =
      (.done (freshResult t category id details now).1 (freshResult t category id details now).2,
       storageSet s (generateCompositeKey category id) (freshResult t category id details now).2,
       [.tracked (freshResult t category id details now).2,
        .outcomeEv (freshResult t category id details now).1
          (freshResult t category id details now).2])
    ∧ (freshResult t category id details now).2.count = 1
    ∧ (freshResult t category id details now).2.config
        = { limit := t.limit, deferInterval := t.deferInterval }
    ∧ (1 ≤ t.limit → (freshResult t category id details now).2.deferred = false) := by
  have hnone := readValid_none_of_stale s (generateCompositeKey category id)
    (generateDetailsHash details) now r hget hstale
  have hfreshes : (1 ≤ t.limit → (freshResult t category id details now).2.deferred = false) := by
    intro hl
    unfold freshResult
    rw [counterTrack_none]
    rw [if_neg (by omega)]
  have hcount : (freshResult t category id details now).2.count = 1 := by
    unfold freshResult
    rw [counterTrack_none]
    split <;> rfl
  have hcfg : (freshResult t category id details now).2.config
      = { limit := t.limit, deferInterval := t.deferInterval } := by
    unfold freshResult
    rw [counterTrack_none]
    split <;> rfl
  refine ⟨?_, hcount, hcfg, hfreshes⟩
  simp only [trackEventC, trackEventWith, hnone]
  have hcond : (Option.isNone (none : Option CounterRecord)
      && decide (0 < t.maxKeys) && decide (t.maxKeys ≤ storageSize s)) = false := by
    by_cases h1 : 0 < t.maxKeys
    · by_cases h2 : t.maxKeys ≤ storageSize s
      · exact absurd ⟨h1, h2⟩ hguard
      · simp [h2]
    · simp [h1]
  rw [hcond]
  rfl

/-- A stale (already expired) stored record of the running example key. -/
def exStaleRecord : CounterRecord :=
  { key := "api_error:db_connection_fail", category := "api_error",
    id := "db_connection_fail", details := Json.null, detailsHash := "",
    count := 3, lastEventTime := 0, expiresAt := 5, deferred := false,
    scheduledSendAt := none, config := { limit := 5, deferInterval := 3600000 } }

/-- A store holding only the stale record. -/
def exStaleStorage : CounterStorage := [("api_error:db_connection_fail", exStaleRecord)]

/-- Witness for `trackEvent_reset_is_fresh` at a concrete expired record. -/
theorem trackEvent_reset_is_fresh_witness :
    storageGet exStaleStorage (generateCompositeKey "api_error" "db_connection_fail")
        = some exStaleRecord
    ∧ (exStaleRecord.expiresAt < 10
        ∨ exStaleRecord.detailsHash ≠ generateDetailsHash Json.null)
    ∧ ¬(0 < exTracker.maxKeys ∧ exTracker.maxKeys ≤ storageSize exStaleStorage)
    ∧ (trackEventC exTracker exStaleStorage "api_error" "db_connection_fail" Json.null 10 =
        (.done (freshResult exTracker "api_error" "db_connection_fail" Json.null 10).1
          (freshResult exTracker "api_error" "db_connection_fail" Json.null 10).2,
         storageSet exStaleStorage (generateCompositeKey "api_error" "db_connection_fail")
           (freshResult exTracker "api_error" "db_connection_fail" Json.null 10).2,
         [.tracked (freshResult exTracker "api_error" "db_connection_fail" Json.null 10).2,
          .outcomeEv (freshResult exTracker "api_error" "db_connection_fail" Json.null 10).1
            (freshResult exTracker "api_error" "db_connection_fail" Json.null 10).2])
      ∧ (freshResult exTracker "api_error" "db_connection_fail" Json.null 10).2.count = 1
      ∧ (freshResult exTracker "api_error" "db_connection_fail" Json.null 10).2.config
          = { limit := exTracker.limit, deferInterval := exTracker.deferInterval }
      ∧ (1 ≤ exTracker.limit →
          (freshResult exTracker "api_error" "db_connection_fail" Json.null 10).2.deferred
            = false)) :=
  ⟨rfl, Or.inl (by decide), by decide,
   trackEvent_reset_is_fresh exTracker exStaleStorage "api_error" "db_connection_fail"
     Json.null 10 exStaleRecord rfl (Or.inl (by decide)) (by decide)⟩

/-- A tracker whose current counter limit is zero. -/
def cxZeroTracker : Tracker :=
  { limit := 0, deferInterval := 100, expireTime := 1000, maxKeys := 0 }

/-- C2 counterexample: with the tracker's current limit 0, a call on an
expired record creates a persisted fresh record with `count = 1` but
`deferred = true` — refuting the claim that the persisted record after an
expiry/fingerprint reset always has `deferred = false` (the fresh record is
immediately deferred, identically to a never-seen key). -/
theorem trackEvent_reset_zero_limit_refutes :
    exStaleRecord.expiresAt < 10
    ∧ resultCount
        (trackEventC cxZeroTracker exStaleStorage "api_error" "db_connection_fail"
          Json.null 10).1 = 1
    ∧ resultDeferred
        (trackEventC cxZeroTracker exStaleStorage "api_error" "db_connection_fail"
          Json.null 10).1 = some true := by
  refine ⟨by decide, by decide, by decide⟩

/-- C5: when `maxKeys > 0` and `size() ≥ maxKeys`, a `trackEvent` call for a
key with no valid existing record (absent, expired, or
fingerprint-mismatched) returns type `ignored` with reason
`key_limit_reached` for every injected strategy — so before the strategy is
invoked — and without any storage write (the returned store is the input
store); a call for a key with a valid existing record is unaffected by the
guard (it behaves exactly as with `maxKeys = 0`). -/
theorem trackEvent_key_limit_guard (t : Tracker) (s : CounterStorage)
    (category id : String) (details : Json) (now : Nat)
    (hmax : 0 < t.maxKeys) (hsize : t.maxKeys ≤ storageSize s) :
    (readValid s (generateCompositeKey category id) (generateDetailsHash details) now
        = none →
      ∀ strat, trackEventWith strat t s category id details now =
        (.ignoredWithReason "key_limit_reached", s,
          [.ignoredReason "key_limit_reached" category id details]))
    ∧ (∀ r : CounterRecord,
        readValid s (generateCompositeKey category id) (generateDetailsHash details) now
            = some r →
        trackEventC t s category id details now
          = trackEventC { t with maxKeys := 0 } s category id details now) := by
  constructor
  · intro hnone strat
    simp only [trackEventWith, hnone]
    have hcond : (Option.isNone (none : Option CounterRecord)
        && decide (0 < t.maxKeys) && decide (t.maxKeys ≤ storageSize s)) = true := by
      simp [hmax, hsize]
    rw [hcond]
    rfl
  · intro r hr
    simp only [trackEventC, trackEventWith, hr]
    have hcond : (Option.isNone (some r)
        && decide (0 < t.maxKeys) && decide (t.maxKeys ≤ storageSize s)) = false := by
      simp
    have hcond0 : (Option.isNone (some r)
        && decide (0 < ({ t with maxKeys := 0 } : Tracker).maxKeys)
        && decide (({ t with maxKeys := 0 } : Tracker).maxKeys ≤ storageSize s)) = false := by
      simp
    rw [hcond, hcond0]
    rfl

/-- A tracker admitting at most one distinct key. -/
def exGuardTracker : Tracker :=
  { limit := 5, deferInterval := 100, expireTime := 1000, maxKeys := 1 }

/-- A valid (unexpired, matching-fingerprint) record under key `x:y`. -/
def exValidRecord : CounterRecord :=
  { key := "x:y", category := "x", id := "y", details := Json.null,
    detailsHash := "", count := 2, lastEventTime := 0, expiresAt := 1000,
    deferred := false, scheduledSendAt := none,
    config := { limit := 5, deferInterval := 100 } }

/-- A full store (one key) for the admission-limit guard. -/
def exGuardStorage : CounterStorage := [("x:y", exValidRecord)]

/-- Witness for `trackEvent_key_limit_guard`: with the store full, a fresh
key is turned away with reason `key_limit_reached` and the store unchanged,
while the existing key `x:y` behaves exactly as with `maxKeys = 0`. -/
theorem trackEvent_key_limit_guard_witness :
    0 < exGuardTracker.maxKeys
    ∧ exGuardTracker.maxKeys ≤ storageSize exGuardStorage
    ∧ readValid exGuardStorage (generateCompositeKey "a" "b")
        (generateDetailsHash Json.null) 10 = none
    ∧ trackEventWith counterTrack exGuardTracker exGuardStorage "a" "b" Json.null 10 =
        (.ignoredWithReason "key_limit_reached", exGuardStorage,
          [.ignoredReason "key_limit_reached" "a" "b" Json.null])
    ∧ readValid exGuardStorage (generateCompositeKey "x" "y")
        (generateDetailsHash Json.null) 10 = some exValidRecord
    ∧ trackEventC exGuardTracker exGuardStorage "x" "y" Json.null 10
        = trackEventC { exGuardTracker with maxKeys := 0 } exGuardStorage "x" "y"
            Json.null 10 :=
  ⟨by decide, by decide, rfl,
   (trackEvent_key_limit_guard exGuardTracker exGuardStorage "a" "b" Json.null 10
     (by decide) (by decide)).1 rfl counterTrack,
   rfl,
   (trackEvent_key_limit_guard exGuardTracker exGuardStorage "x" "y" Json.null 10
     (by decide) (by decide)).2 exValidRecord rfl⟩

/-! ### Idempotence of the drain operation. -/

/-- With unique keys (a `Map` invariant), deleting a key is filtering it
out. -/
theorem storageDelete_eq_filter (k : String) :
    ∀ s : CounterStorage, (s.map Prod.fst).Nodup →
      storageDelete s k = s.filter (fun p => p.1 ≠ k) := by
  intro s
  induction s with
  | nil => intro _; rfl
  | cons p rest ih =>
    intro hnd
    obtain ⟨k2, r2⟩ := p
    simp only [List.map_cons, List.nodup_cons] at hnd
    simp only [storageDelete, List.filter_cons]
    by_cases hk : k2 = k
    · rw [if_pos hk]
      have : (decide ((k2, r2).1 ≠ k)) = false := by simp [hk]
      rw [this]
      subst hk
      have hall : ∀ p2 ∈ rest, (decide (p2.1 ≠ k2)) = true := by
        intro p2 hp2
        have : p2.1 ∈ rest.map Prod.fst := List.mem_map_of_mem Prod.fst hp2
        simp only [decide_eq_true_eq]
        intro hcontr
        rw [hcontr] at this
        exact hnd.1 this
      exact (List.filter_eq_self.mpr hall).symm
    · rw [if_neg hk]
      have : (decide ((k2, r2).1 ≠ k)) = true := by simp [hk]
      rw [this]
      rw [ih hnd.2]
      rfl

/-- Folding deletions of the keys of a record batch over a unique-key store
filters out every entry whose key appears in the batch. -/
theorem foldl_delete_eq_filter :
    ∀ (l : List CounterRecord) (s : CounterStorage), (s.map Prod.fst).Nodup →
      l.foldl (fun st r => storageDelete st r.key) s
        = s.filter (fun p => l.all (fun r => p.1 ≠ r.key)) := by
  intro l
  induction l with
  | nil =>
    intro s _
    simp
  | cons r lrest ih =>
    intro s hnd
    have h1 : (r :: lrest).foldl (fun st r2 => storageDelete st r2.key) s
        = lrest.foldl (fun st r2 => storageDelete st r2.key) (storageDelete s r.key) := rfl
    rw [h1, storageDelete_eq_filter r.key s hnd]
    have hnd2 : ((s.filter (fun p => p.1 ≠ r.key)).map Prod.fst).Nodup := by
      have hsub : List.Sublist ((s.filter (fun p => p.1 ≠ r.key)).map Prod.fst)
          (s.map Prod.fst) := (s.filter_sublist).map Prod.fst
      exact hnd.sublist hsub
    rw [ih _ hnd2]
    rw [List.filter_filter]
    apply List.filter_congr
    intro p _
    simp only [List.all_cons]
    rw [Bool.and_comm]

/-- C8: `processDeferredEvents` is idempotent over an unchanged store: for
every well-formed storage state (each record stored under its own `key`
field, keys unique, as `Map` plus `set`/`delete` guarantee), a second call
at the same time returns an empty batch, because the first call deleted
every due deferred record. -/
theorem processDeferred_idempotent (now : Nat) (s : CounterStorage)
    (hkeys : ∀ p ∈ s, (p.2 : CounterRecord).key = p.1)
    (hnd : (s.map Prod.fst).Nodup) :
    (processDeferredEvents now (processDeferredEvents now s).2.1).1 = [] := by
  have h2 : (processDeferredEvents now s).2.1
      = s.filter (fun p => (findDueDeferred now s).all (fun r => p.1 ≠ r.key)) := by
    simp only [processDeferredEvents]
    exact foldl_delete_eq_filter (findDueDeferred now s) s hnd
  rw [h2]
  have h3 : (processDeferredEvents now
        (s.filter (fun p => (findDueDeferred now s).all (fun r => p.1 ≠ r.key)))).1
      = ((s.filter (fun p => (findDueDeferred now s).all (fun r => p.1 ≠ r.key))).map
          Prod.snd).filter (isDue now) := rfl
  rw [h3]
  rw [List.filter_eq_nil_iff]
  intro a ha
  intro hdue
  obtain ⟨p, hp, hpa⟩ := List.mem_map.mp ha
  have hpmem := List.mem_filter.mp hp
  have hmemdue : a ∈ findDueDeferred now s := by
    have hmem2 : a ∈ (s.map Prod.snd).filter (isDue now) := by
      apply List.mem_filter.mpr
      refine ⟨?_, hdue⟩
      rw [← hpa]
      exact List.mem_map_of_mem Prod.snd hpmem.1
    exact hmem2
  have hall := hpmem.2
  rw [List.all_eq_true] at hall
  have hne := hall a hmemdue
  simp only [decide_eq_true_eq] at hne
  have hkey := hkeys p hpmem.1
  rw [hpa] at hkey
  exact hne hkey.symm

/-- A due deferred record stored under its key. -/
def exDueRecord : CounterRecord :=
  { key := "k1", category := "c", id := "i1", details := Json.null,
    detailsHash := "", count := 6, lastEventTime := 0, expiresAt := 100,
    deferred := true, scheduledSendAt := some 5,
    config := { limit := 5, deferInterval := 5 } }

/-- An active (not deferred) record stored under its key. -/
def exActiveRecord : CounterRecord :=
  { key := "k2", category := "c", id := "i2", details := Json.null,
    detailsHash := "", count := 1, lastEventTime := 0, expiresAt := 100,
    deferred := false, scheduledSendAt := none,
    config := { limit := 5, deferInterval := 5 } }

/-- A well-formed store with one due deferred record and one active one. -/
def exDrainStorage : CounterStorage := [("k1", exDueRecord), ("k2", exActiveRecord)]

/-- Witness for `processDeferred_idempotent` at a concrete store whose
first drain returns one record and whose second drain returns none. -/
theorem processDeferred_idempotent_witness :
    (∀ p ∈ exDrainStorage, (p.2 : CounterRecord).key = p.1)
    ∧ (exDrainStorage.map Prod.fst).Nodup
    ∧ (processDeferredEvents 10 (processDeferredEvents 10 exDrainStorage).2.1).1 = [] :=
  ⟨by decide, by decide,
   processDeferred_idempotent 10 exDrainStorage (by decide) (by decide)⟩

/-! ### Runtime config update and fingerprint collision. -/

/-- C9: `updateConfig` on a key with no record returns `false`, writes
nothing and emits nothing; on an existing record it replaces the record's
config by the merge of the prior config and the patch (fields absent from
the patch keep their prior values, fields present override), leaves every
non-config field unchanged (captured by the `{ r with config := ... }`
record update), persists the merged record, emits `config_updated` with it,
and returns `true`. -/
theorem updateConfig_spec (s : CounterStorage) (category id : String)
    (patch : ConfigPatch) :
    (storageGet s (generateCompositeKey category id) = none →
      updateConfig s category id patch = (false, s, []))
    ∧ (∀ r : CounterRecord,
        storageGet s (generateCompositeKey category id) = some r →
        updateConfig s category id patch =
          (true,
           storageSet s (generateCompositeKey category id)
             { r with config := mergeConfig r.config patch },
           [.configUpdated { r with config := mergeConfig r.config patch }])
        ∧ (patch.patchLimit = none →
            (mergeConfig r.config patch).limit = r.config.limit)
        ∧ (patch.patchDeferInterval = none →
            (mergeConfig r.config patch).deferInterval = r.config.deferInterval)
        ∧ (∀ v, patch.patchLimit = some v → (mergeConfig r.config patch).limit = v)
        ∧ (∀ v, patch.patchDeferInterval = some v →
            (mergeConfig r.config patch).deferInterval = v)) := by
  constructor
  · intro hnone
    simp only [updateConfig, hnone]
  · intro r hr
    refine ⟨by simp only [updateConfig, hr], ?_, ?_, ?_, ?_⟩
    · intro hp
      simp [mergeConfig, hp]
    · intro hp
      simp [mergeConfig, hp]
    · intro v hp
      simp [mergeConfig, hp]
    · intro v hp
      simp [mergeConfig, hp]

/-- A patch that sets only the limit. -/
def exPatch : ConfigPatch := { patchLimit := some 9, patchDeferInterval := none }

/-- Witness for `updateConfig_spec`: a missing key returns `false` with no
write or notification; the present key `x:y` gets its limit overridden to 9
with the defer interval retained, is persisted, and `config_updated` fires. -/
theorem updateConfig_spec_witness :
    (storageGet ([] : CounterStorage) (generateCompositeKey "a" "b") = none
      ∧ updateConfig ([] : CounterStorage) "a" "b" exPatch = (false, [], []))
    ∧ (storageGet exGuardStorage (generateCompositeKey "x" "y") = some exValidRecord
      ∧ (updateConfig exGuardStorage "x" "y" exPatch =
          (true,
           storageSet exGuardStorage (generateCompositeKey "x" "y")
             { exValidRecord with config := mergeConfig exValidRecord.config exPatch },
           [.configUpdated
             { exValidRecord with config := mergeConfig exValidRecord.config exPatch }])
        ∧ (exPatch.patchLimit = none →
            (mergeConfig exValidRecord.config exPatch).limit = exValidRecord.config.limit)
        ∧ (exPatch.patchDeferInterval = none →
            (mergeConfig exValidRecord.config exPatch).deferInterval
              = exValidRecord.config.deferInterval)
        ∧ (∀ v, exPatch.patchLimit = some v →
            (mergeConfig exValidRecord.config exPatch).limit = v)
        ∧ (∀ v, exPatch.patchDeferInterval = some v →
            (mergeConfig exValidRecord.config exPatch).deferInterval = v))) :=
  ⟨⟨rfl, (updateConfig_spec ([] : CounterStorage) "a" "b" exPatch).1 rfl⟩,
   ⟨rfl, (updateConfig_spec exGuardStorage "x" "y" exPatch).2 exValidRecord rfl⟩⟩

/-- The payload `\x7b a: \x7b x: 1 \x7d \x7d` of the fingerprint-collision
scenario. -/
def cxNestedOne : Json := .obj [("a", .obj [("x", .num 1)])]

/-- The payload `\x7b a: \x7b x: 2 \x7d \x7d`, differing only in the nested
field `x`, whose key is not among the top-level keys. -/
def cxNestedTwo : Json := .obj [("a", .obj [("x", .num 2)])]

/-- C10: the details fingerprint is `JSON.stringify(details, sortedKeys)`
with the sorted top-level key array acting as a replacer that filters keys
at every nesting depth: the two distinct payloads differing only in the
nested field `x` (not a top-level key) fingerprint identically, and
`trackEvent` therefore treats the second payload as another occurrence of
the first (the stored record's count moves to 2) instead of forcing a
fingerprint-mismatch reset. -/
theorem nested_fingerprint_collision :
    cxNestedOne ≠ cxNestedTwo
    ∧ generateDetailsHash cxNestedOne = generateDetailsHash cxNestedTwo
    ∧ resultCount
        (trackEventC exTracker
          (trackEventC exTracker [] "api_error" "db_connection_fail" cxNestedOne 0).2.1
          "api_error" "db_connection_fail" cxNestedTwo 0).1 = 2 := by
  refine ⟨?_, by decide, by decide⟩
  intro h
  simp only [cxNestedOne, cxNestedTwo, Json.obj.injEq, List.cons.injEq, Prod.mk.injEq,
    Json.num.injEq, and_true, true_and] at h
  omega
